import Mathlib

/-!
# Verification of the aquarium-bot relay pipeline

A shallow embedding of the relay pipeline of the aquarium-bot repository:
subscription-tier limits (`src/config/subscriptions.ts`), the language table
(`src/config/languages.ts`), the translation gateway
(`services/translation.ts`), the moderation store (`services/moderation.ts`),
the bounded webhook-client cache (`services/webhook.ts`, LRU variant), and
the message-relay handler (`events/messageCreate.ts`).

Modelling conventions: JavaScript numbers become `Nat`/`Int`; `Date` values
become `Int` instants (milliseconds for ban expiry, day numbers for
date-only comparisons, an abstract instant for month starts); nullable
fields become `Option`; a JS `Map` becomes an insertion-ordered association
list; thrown exceptions become explicit outcome values; the Prisma
`$transaction` primitive becomes an all-or-nothing fold over the operation
list, selected by a `txOk` flag standing for commit success.
-/

namespace Aquarium

/-! ## Subscription tiers (`src/config/subscriptions.ts`) -/

structure TierLimits where
  perUser : Nat
  perGuild : Nat
deriving DecidableEq, Repr

/-- `SUBSCRIPTION_TIERS[tier]?.limits` — guild tiers. -/
def subscriptionTierLimits : String → Option TierLimits
  | "free" => some ⟨5000, 25000⟩
  | "pro" => some ⟨25000, 150000⟩
  | "premium" => some ⟨100000, 500000⟩
  | _ => none

/-- `USER_SUBSCRIPTION_TIERS[tier]?.limits` — personal tiers. -/
def userSubscriptionTierLimits : String → Option TierLimits
  | "free" => some ⟨5000, 0⟩
  | "pro" => some ⟨25000, 0⟩
  | "premium" => some ⟨100000, 0⟩
  | _ => none

/-- `getTierLimits`: guild-tier limits with fallback to the free tier. -/
def getTierLimits (tier : String) : TierLimits :=
  (subscriptionTierLimits tier).getD ⟨5000, 25000⟩

/-- `getEffectiveUserLimit(userTier, guildTier)`:
`Math.max(userLimits.perUser, guildLimits.perUser)` with each table
falling back to its free tier. -/
def getEffectiveUserLimit (userTier guildTier : String) : Nat :=
  let userLimits := (userSubscriptionTierLimits userTier).getD ⟨5000, 0⟩
  let guildLimits := (subscriptionTierLimits guildTier).getD ⟨5000, 25000⟩
  Nat.max userLimits.perUser guildLimits.perUser

/-! ## Languages (`src/config/languages.ts`) -/

/-- `LANGUAGE_CODES = Object.keys(LANGUAGES)`, in declaration order. -/
def LANGUAGE_CODES : List String :=
  ["EN", "ES", "PT-BR", "FR", "DE", "IT", "JA", "KO", "ZH"]

/-- `getOtherLanguages(excludeCode)`: every language whose code differs
from `excludeCode`, in table order. -/
def getOtherLanguages (excludeCode : String) : List String :=
  LANGUAGE_CODES.filter (fun c => c ≠ excludeCode)

/-! ## TranslationGateway (`src/services/translation.ts`) -/

/-- `translateToAllLanguages(text, sourceLang)`: throws (`none`) on an
invalid source code; otherwise issues one provider call per *other*
language of the table and collects the results into a map whose keys are,
in insertion order, exactly `getOtherLanguages sourceLang`, together with
`characterCount = text.length * otherLanguages.length`.  The function
takes no enabled-language subset: its target set is always the full
table minus the source.  `translate` stands for the external provider. -/
def translateToAllLanguages (translate : String → String → String)
    (text : String) (sourceLang : String) :
    Option (List (String × String) × Nat) :=
  if sourceLang ∈ LANGUAGE_CODES then
    let others := getOtherLanguages sourceLang
    some (others.map (fun l => (l, translate text l)), text.length * others.length)
  else
    none

/-- The target set the spec asks for: the configured enabled subset minus
the source language when a non-empty subset is configured, and all
languages minus the source otherwise.  Stated from the spec's words, for
comparison with `translateToAllLanguages`. -/
def specEnabledTargets (enabled : List String) (sourceLang : String) : List String :=
  if enabled ≠ [] then enabled.filter (fun c => c ≠ sourceLang)
  else LANGUAGE_CODES.filter (fun c => c ≠ sourceLang)

/-! ## ModerationStore (`src/services/moderation.ts`) -/

/-- One `immersionBan` row.  `expiresAt` is an instant in milliseconds;
`none` means a permanent ban. -/
structure Ban where
  guildId : String
  discordId : String
  active : Bool
  expiresAt : Option Int
deriving DecidableEq, Repr

/-- A ban row is expired at `now` when it carries an expiry that has
passed (`expiresAt <= now`, the `lte` filter of the sweep). -/
def banExpired (now : Int) (b : Ban) : Bool :=
  match b.expiresAt with
  | some e => decide (e ≤ now)
  | none => false

/-- The `updateMany` sweep inside `getActiveBan`: deactivate every active
ban of the (guild, user) pair whose `expiresAt` has passed. -/
def sweepBans (now : Int) (g u : String) (bans : List Ban) : List Ban :=
  bans.map fun b =>
    if b.guildId == g && b.discordId == u && b.active && banExpired now b
    then { b with active := false } else b

/-- `getActiveBan(guildId, discordId)`: first sweep expired bans, then
return the first remaining active row of the pair.  The returned pair is
(store after the sweep, query result). -/
def getActiveBan (now : Int) (g u : String) (bans : List Ban) :
    List Ban × Option Ban :=
  let bans' := sweepBans now g u bans
  (bans', bans'.find? fun b => b.guildId == g && b.discordId == u && b.active)

/-- `banUser(guildId, targetId, moderatorId, reason?, duration?)`.
Fails (`none` result) when an active ban already exists; otherwise creates
a row with `expiresAt = duration ? new Date(Date.now() + duration*1000) :
null` — a JavaScript truthiness test, so a duration of `0` falls to the
`null` branch exactly like an absent duration.  Returns
(created ban's `expiresAt` if successful, store afterwards). -/
def banUser (now : Int) (g u : String) (duration : Option Nat)
    (bans : List Ban) : Option (Option Int) × List Ban :=
  let (bans', existing) := getActiveBan now g u bans
  match existing with
  | some _ => (none, bans')
  | none =>
    let expiresAt : Option Int :=
      match duration with
      | some d => if d ≠ 0 then some (now + (d : Int) * 1000) else none
      | none => none
    (some expiresAt, bans' ++ [⟨g, u, true, expiresAt⟩])

/-- `timeoutUser`: `banUser` with a mandatory duration. -/
def timeoutUser (now : Int) (g u : String) (duration : Nat)
    (bans : List Ban) : Option (Option Int) × List Ban :=
  banUser now g u (some duration) bans

/-- Digit run → value, as `parseInt(match[1], 10)` on the matched digits. -/
def digitsToNat (ds : List Char) : Nat :=
  ds.foldl (fun n c => n * 10 + (c.toNat - 48)) 0

/-- `parseDuration(duration)`: the regex `^(\d+)\s*(s|m|h|d|w)$/i`
modelled by scanning — a non-empty digit run, optional whitespace, one
unit letter, end of string — then the unit switch to seconds. -/
def parseDuration (s : String) : Option Nat :=
  let cs := s.data
  let digits := cs.takeWhile Char.isDigit
  let rest := cs.dropWhile Char.isDigit
  if digits.isEmpty then none
  else
    match rest.dropWhile (fun c => c == ' ' || c == '\t') with
    | [u] =>
      let v := digitsToNat digits
      let unit := u.toLower
      if unit == 's' then some v
      else if unit == 'm' then some (v * 60)
      else if unit == 'h' then some (v * 3600)
      else if unit == 'd' then some (v * 86400)
      else if unit == 'w' then some (v * 604800)
      else none
    | _ => none

/-! ## DeliveryCache (`WebhookService` LRU cache) -/

/-- One cached webhook client: the map key `"id:token"` and the
`lastUsed` timestamp. -/
structure CacheEntry where
  key : String
  lastUsed : Int
deriving DecidableEq, Repr

def WEBHOOK_CACHE_MAX_SIZE : Nat := 100

/-- The scan of `evictOldestClient`: starting from the first entry, keep
the entry with the strictly smallest `lastUsed` seen so far (so ties keep
the earliest entry in iteration order). -/
def findOldest (best : CacheEntry) : List CacheEntry → CacheEntry
  | [] => best
  | e :: rest => findOldest (if e.lastUsed < best.lastUsed then e else best) rest

/-- `evictOldestClient()`: destroy and delete the least-recently-used
entry; a no-op on an empty cache (`oldestKey` stays null). -/
def evictOldestClient (c : List CacheEntry) : List CacheEntry :=
  match c with
  | [] => []
  | e :: rest =>
    let old := findOldest e rest
    c.eraseP (fun x => x.key == old.key)

/-- `getWebhookClient(webhookId, webhookToken)`, state part: on a hit,
refresh the entry's `lastUsed`; on a miss, first evict the LRU entry when
`size >= WEBHOOK_CACHE_MAX_SIZE`, then insert the new entry at the end
(JS `Map` insertion order). -/
def acquire (now : Int) (key : String) (c : List CacheEntry) : List CacheEntry :=
  if c.any (fun e => e.key == key) then
    c.map (fun e => if e.key == key then { e with lastUsed := now } else e)
  else
    let c' := if WEBHOOK_CACHE_MAX_SIZE ≤ c.length then evictOldestClient c else c
    c' ++ [⟨key, now⟩]

/-! ## RelayPipeline (`src/events/messageCreate.ts`) -/

/-- The `verifiedUser` row fields the pipeline touches.  Dates that the
code compares after `setHours(0,0,0,0)` are day numbers (`Int`);
`usageResetDate` is compared against the start-of-month instant. -/
structure VerifiedUser where
  monthlyCharacterUsage : Nat
  usageResetDate : Int
  currentStreak : Nat
  longestStreak : Nat
  lastActiveDate : Option Int
  totalTranslations : Nat
  immersionEnabled : Bool
deriving DecidableEq, Repr

/-- The `guildConfig` row fields the pipeline touches: the nine per-language
channel columns, the enabled-language subset (`[]` means all), tier and
the monthly counter. -/
structure GuildConfig where
  categoryId : Option String
  englishChannelId : Option String
  spanishChannelId : Option String
  portugueseChannelId : Option String
  frenchChannelId : Option String
  germanChannelId : Option String
  italianChannelId : Option String
  japaneseChannelId : Option String
  koreanChannelId : Option String
  chineseChannelId : Option String
  enabledLanguages : List String
  subscriptionTier : String
  monthlyCharacterUsage : Nat
  usageResetDate : Int
deriving DecidableEq, Repr

/-- The cross-tenant `user` row fields the pipeline touches. -/
structure GlobalUser where
  subscriptionTier : String
  totalTranslationsAllTime : Nat
  totalCharactersAllTime : Nat
deriving DecidableEq, Repr

/-- One `usageLog` row: append-only, one per successful relay. -/
structure UsageLogEntry where
  guildId : String
  userId : String
  sourceLanguage : String
  targetLanguage : String
  characterCount : Nat
deriving DecidableEq, Repr

/-- The persistent-store slice for one (tenant, user) pair, plus the ban
store and the append-only usage log. -/
structure RelayState where
  config : Option GuildConfig
  verifiedUser : Option VerifiedUser
  globalUser : Option GlobalUser
  bans : List Ban
  usageLogs : List UsageLogEntry
deriving DecidableEq, Repr

/-- The three views the handler takes of `new Date()`: the raw instant (for
ban expiry), the midnight day number (`today.setHours(0,0,0,0)`), and the
start-of-month instant (`new Date(year, month, 1)`). -/
structure Clock where
  ms : Int
  day : Int
  monthStart : Int

/-- Responses of the external collaborators during one event: the
translation provider, whether the provider batch resolves, which
languages have a configured webhook, which sends succeed, and whether
the `$transaction` commit succeeds. -/
structure RelayEnv where
  translate : String → String → String
  transOk : Bool
  webhookFor : String → Bool
  sendOk : String → Bool
  txOk : Bool

/-- One inbound message event. -/
structure MessageEvent where
  authorBot : Bool
  fromWebhook : Bool
  inGuild : Bool
  content : String
  channelId : String
  guildId : String
  authorId : String

inductive RelayOutcome where
  | ignored
  | notVerified
  | immersionDisabled
  | banned
  | userLimitExceeded
  | guildLimitExceeded
  | translationFailed
  | deliveryFailed
  | committed
  | commitFailed
deriving DecidableEq, Repr

structure RelayResult where
  outcome : RelayOutcome
  state : RelayState
  delivered : List String
deriving DecidableEq, Repr

/-- `channelLanguageMap[channelId] = langCode` — JS object assignment:
replace an existing key, otherwise append. -/
def insertChannel (m : List (String × String)) (cid lang : String) :
    List (String × String) :=
  if m.any (fun p => p.1 == cid) then
    m.map (fun p => if p.1 == cid then (cid, lang) else p)
  else
    m ++ [(cid, lang)]

/-- `addChannel(channelId, langCode)`: add the mapping when the channel id
is set (truthy, so non-null and non-empty) and the language is enabled
(empty subset means all enabled). -/
def addChannel (enabled : List String) (m : List (String × String))
    (cid : Option String) (lang : String) : List (String × String) :=
  match cid with
  | some c =>
    if c ≠ "" ∧ (enabled = [] ∨ lang ∈ enabled) then insertChannel m c lang
    else m
  | none => m

/-- The nine `addChannel` calls, in source order. -/
def buildChannelMap (cfg : GuildConfig) : List (String × String) :=
  let e := cfg.enabledLanguages
  let m := addChannel e [] cfg.englishChannelId "EN"
  let m := addChannel e m cfg.spanishChannelId "ES"
  let m := addChannel e m cfg.portugueseChannelId "PT-BR"
  let m := addChannel e m cfg.frenchChannelId "FR"
  let m := addChannel e m cfg.germanChannelId "DE"
  let m := addChannel e m cfg.italianChannelId "IT"
  let m := addChannel e m cfg.japaneseChannelId "JA"
  let m := addChannel e m cfg.koreanChannelId "KO"
  addChannel e m cfg.chineseChannelId "ZH"

/-- `channelLanguageMap[message.channel.id]`. -/
def lookupChannel (m : List (String × String)) (cid : String) : Option String :=
  (m.find? (fun p => p.1 == cid)).map (fun p => p.2)

/-- The user-side monthly rollover: reset the counter and stamp the reset
date when `usageResetDate < startOfMonth`. -/
def rolloverUser (monthStart : Int) (u : VerifiedUser) : VerifiedUser :=
  if u.usageResetDate < monthStart then
    { u with monthlyCharacterUsage := 0, usageResetDate := monthStart }
  else u

/-- The guild-side monthly rollover. -/
def rolloverConfig (monthStart : Int) (c : GuildConfig) : GuildConfig :=
  if c.usageResetDate < monthStart then
    { c with monthlyCharacterUsage := 0, usageResetDate := monthStart }
  else c

/-- `numTargetLanguages`: the enabled subset minus the source language
when a subset is configured, otherwise the full table minus one. -/
def numTargetLanguages (enabled : List String) (sourceLang : String) : Nat :=
  if enabled.length > 0 then
    (enabled.filter (fun l => l ≠ sourceLang)).length
  else
    LANGUAGE_CODES.length - 1

/-- The streak recomputation of the handler: day difference between the
two midnights, then the 0 / 1 / broken cases; first activity ever sets
both streaks to 1.  Returns (newStreak, longestStreak). -/
def updateStreak (today : Int) (lastActiveDate : Option Int)
    (currentStreak longestStreak : Nat) : Nat × Nat :=
  match lastActiveDate with
  | some last =>
    let daysDiff := today - last
    if daysDiff = 0 then (currentStreak, longestStreak)
    else if daysDiff = 1 then
      let ns := currentStreak + 1
      (ns, if ns > longestStreak then ns else longestStreak)
    else (1, longestStreak)
  | none => (1, 1)

/-- The fan-out loop over `result.translations`: look up the webhook for
each language, skip silently when none is configured, send otherwise.  A
failed send throws, which aborts the loop — the remaining languages are
not attempted.  Returns (languages actually delivered, whether the loop
completed without an exception). -/
def fanOut (webhookFor : String → Bool) (sendOk : String → Bool) :
    List (String × String) → List String × Bool
  | [] => ([], true)
  | (lang, _) :: rest =>
    if webhookFor lang then
      if sendOk lang then
        let r := fanOut webhookFor sendOk rest
        (lang :: r.1, r.2)
      else ([], false)
    else fanOut webhookFor sendOk rest

/-- The operation array handed to `prisma.$transaction`, in source order:
the `verifiedUser` update (usage increment, streak fields, `lastActiveDate`,
`totalTranslations` increment), the `guildConfig` usage increment, the
`usageLog` create, and — when a global user record exists — the lifetime
counter increments. -/
def buildTransactionOps (cost : Nat) (today : Int) (newStreak longest : Nat)
    (entry : UsageLogEntry) (hasGlobal : Bool) :
    List (RelayState → RelayState) :=
  [fun st => { st with verifiedUser := st.verifiedUser.map fun u =>
      { u with
        monthlyCharacterUsage := u.monthlyCharacterUsage + cost,
        currentStreak := newStreak,
        longestStreak := longest,
        lastActiveDate := some today,
        totalTranslations := u.totalTranslations + 1 } },
   fun st => { st with config := st.config.map fun c =>
      { c with monthlyCharacterUsage := c.monthlyCharacterUsage + cost } },
   fun st => { st with usageLogs := st.usageLogs ++ [entry] }] ++
  (if hasGlobal then
    [fun st => { st with globalUser := st.globalUser.map fun g =>
      { g with
        totalTranslationsAllTime := g.totalTranslationsAllTime + 1,
        totalCharactersAllTime := g.totalCharactersAllTime + cost } }]
   else [])

/-- `prisma.$transaction(ops)`: all-or-nothing — when the commit succeeds
every operation is applied in order, when it fails none is. -/
def runTransaction (txOk : Bool) (ops : List (RelayState → RelayState))
    (s : RelayState) : RelayState :=
  if txOk then ops.foldl (fun st f => f st) s else s

/-- `Array.from(result.translations.keys()).join(",")`. -/
def joinTargets (translations : List (String × String)) : String :=
  String.intercalate "," (translations.map (fun p => p.1))

/-- `handleMessageCreate`, from the global-user fetch-or-create to the
transaction: `s1` is the state after the ban-query sweep, `cfg` and `vu`
the rows read earlier, `sourceLang` the resolved source language.  The
post-transaction achievement evaluation and the budget-warning notice
touch none of the fields modelled here and are omitted. -/
def relayCore (clock : Clock) (env : RelayEnv) (ev : MessageEvent)
    (cfg : GuildConfig) (vu : VerifiedUser) (sourceLang : String)
    (s1 : RelayState) : RelayResult :=
  let gu := (s1.globalUser).getD ⟨"free", 0, 0⟩
  let s2 := { s1 with globalUser := some gu }
  let vu1 := rolloverUser clock.monthStart vu
  let cfg1 := rolloverConfig clock.monthStart cfg
  let s3 := { s2 with verifiedUser := some vu1, config := some cfg1 }
  let guildLimits := getTierLimits cfg1.subscriptionTier
  let userTier := if gu.subscriptionTier = "" then "free"
                  else gu.subscriptionTier
  let effectiveUserLimit :=
    getEffectiveUserLimit userTier cfg1.subscriptionTier
  let characterCost :=
    ev.content.length * numTargetLanguages cfg.enabledLanguages sourceLang
  if vu1.monthlyCharacterUsage + characterCost > effectiveUserLimit then
    ⟨.userLimitExceeded, s3, []⟩
  else if cfg1.monthlyCharacterUsage + characterCost > guildLimits.perGuild then
    ⟨.guildLimitExceeded, s3, []⟩
  else if !env.transOk then ⟨.translationFailed, s3, []⟩
  else
    match translateToAllLanguages env.translate ev.content sourceLang with
    | none => ⟨.translationFailed, s3, []⟩
    | some (translations, _) =>
      let fo := fanOut env.webhookFor env.sendOk translations
      if !fo.2 then ⟨.deliveryFailed, s3, fo.1⟩
      else
        let streaks := updateStreak clock.day vu1.lastActiveDate
          vu1.currentStreak vu1.longestStreak
        let entry : UsageLogEntry :=
          ⟨ev.guildId, ev.authorId, sourceLang,
           joinTargets translations, characterCost⟩
        let ops := buildTransactionOps characterCost clock.day
          streaks.1 streaks.2 entry s3.globalUser.isSome
        if env.txOk then
          ⟨.committed, runTransaction true ops s3, fo.1⟩
        else ⟨.commitFailed, s3, fo.1⟩

/-- `handleMessageCreate`: the gate chain, then `relayCore`.  The
`!message.content.trim()` gate holds exactly when every character of the
content is whitespace.  Exceptions escaping to the outer `catch` leave the
state as last persisted. -/
def relayEvent (clock : Clock) (env : RelayEnv) (ev : MessageEvent)
    (s : RelayState) : RelayResult :=
  if ev.authorBot || ev.fromWebhook then ⟨.ignored, s, []⟩
  else if !ev.inGuild then ⟨.ignored, s, []⟩
  else if ev.content.data.all (fun c => c.isWhitespace) then ⟨.ignored, s, []⟩
  else
    match s.config with
    | none => ⟨.ignored, s, []⟩
    | some cfg =>
      if cfg.categoryId.getD "" = "" then ⟨.ignored, s, []⟩
      else
        match lookupChannel (buildChannelMap cfg) ev.channelId with
        | none => ⟨.ignored, s, []⟩
        | some sourceLang =>
          match s.verifiedUser with
          | none => ⟨.notVerified, s, []⟩
          | some vu =>
            if !vu.immersionEnabled then ⟨.immersionDisabled, s, []⟩
            else
              let swept := getActiveBan clock.ms ev.guildId ev.authorId s.bans
              let s1 := { s with bans := swept.1 }
              match swept.2 with
              | some _ => ⟨.banned, s1, []⟩
              | none => relayCore clock env ev cfg vu sourceLang s1

/-- The global-user record created on first contact (`prisma.user.create`
with the schema defaults for the fields modelled here). -/
def defaultGlobalUser : GlobalUser := ⟨"free", 0, 0⟩

/-! ## Helper lemmas -/

/-- When every gate up to the ban check passes, the handler runs
`relayCore` on the swept state. -/
theorem relayEvent_gates
    (clock : Clock) (env : RelayEnv) (ev : MessageEvent) (s : RelayState)
    (cfg : GuildConfig) (vu : VerifiedUser) (sourceLang : String)
    (hbot : ev.authorBot = false) (hweb : ev.fromWebhook = false)
    (hg : ev.inGuild = true)
    (hblank : ev.content.data.all (fun c => c.isWhitespace) = false)
    (hcfg : s.config = some cfg) (hcat : cfg.categoryId.getD "" ≠ "")
    (hchan : lookupChannel (buildChannelMap cfg) ev.channelId = some sourceLang)
    (hvu : s.verifiedUser = some vu) (him : vu.immersionEnabled = true)
    (hban : (getActiveBan clock.ms ev.guildId ev.authorId s.bans).2 = none) :
    relayEvent clock env ev s =
      relayCore clock env ev cfg vu sourceLang
        { s with bans := (getActiveBan clock.ms ev.guildId ev.authorId s.bans).1 } := by
  unfold relayEvent
  simp only [hbot, hweb, hg, hblank, hcfg, hcat, hchan, hvu, him, hban,
    Bool.false_or, Bool.not_true, if_false, Bool.false_eq_true, ite_false]

/-- The fully successful path of `relayCore`: within both limits, the
provider resolves, every delivery succeeds and the transaction commits.
The final state carries every write of the transaction. -/
theorem relayCore_committed
    (clock : Clock) (env : RelayEnv) (ev : MessageEvent)
    (cfg : GuildConfig) (vu : VerifiedUser) (sourceLang : String)
    (s1 : RelayState)
    (hsrc : sourceLang ∈ LANGUAGE_CODES)
    (hu : ¬ (rolloverUser clock.monthStart vu).monthlyCharacterUsage +
        ev.content.length * numTargetLanguages cfg.enabledLanguages sourceLang >
        getEffectiveUserLimit
          (if (s1.globalUser.getD defaultGlobalUser).subscriptionTier = ""
           then "free" else (s1.globalUser.getD defaultGlobalUser).subscriptionTier)
          (rolloverConfig clock.monthStart cfg).subscriptionTier)
    (hgl : ¬ (rolloverConfig clock.monthStart cfg).monthlyCharacterUsage +
        ev.content.length * numTargetLanguages cfg.enabledLanguages sourceLang >
        (getTierLimits (rolloverConfig clock.monthStart cfg).subscriptionTier).perGuild)
    (htr : env.transOk = true)
    (hfo : (fanOut env.webhookFor env.sendOk
        ((getOtherLanguages sourceLang).map
          (fun l => (l, env.translate ev.content l)))).2 = true)
    (htx : env.txOk = true) :
    relayCore clock env ev cfg vu sourceLang s1 =
      let gu := s1.globalUser.getD defaultGlobalUser
      let vu1 := rolloverUser clock.monthStart vu
      let cfg1 := rolloverConfig clock.monthStart cfg
      let cost := ev.content.length * numTargetLanguages cfg.enabledLanguages sourceLang
      let trs := (getOtherLanguages sourceLang).map
          (fun l => (l, env.translate ev.content l))
      let streaks := updateStreak clock.day vu1.lastActiveDate
          vu1.currentStreak vu1.longestStreak
      ⟨.committed,
       { config := some { cfg1 with
           monthlyCharacterUsage := cfg1.monthlyCharacterUsage + cost },
         verifiedUser := some { vu1 with
           monthlyCharacterUsage := vu1.monthlyCharacterUsage + cost,
           currentStreak := streaks.1,
           longestStreak := streaks.2,
           lastActiveDate := some clock.day,
           totalTranslations := vu1.totalTranslations + 1 },
         globalUser := some { gu with
           totalTranslationsAllTime := gu.totalTranslationsAllTime + 1,
           totalCharactersAllTime := gu.totalCharactersAllTime + cost },
         bans := s1.bans,
         usageLogs := s1.usageLogs ++
           [⟨ev.guildId, ev.authorId, sourceLang, joinTargets trs, cost⟩] },
       (fanOut env.webhookFor env.sendOk trs).1⟩ := by
  unfold relayCore translateToAllLanguages defaultGlobalUser
  unfold defaultGlobalUser at hu
  simp only [if_pos hsrc, if_neg hu, if_neg hgl, htr, htx,
    Bool.not_true, Bool.false_eq_true, if_false, hfo, if_true,
    buildTransactionOps, runTransaction, Option.isSome_some, if_pos,
    List.foldl, Option.map_some']

/-- The same path with a failing commit: the outcome is `commitFailed` and
the state is exactly the pre-transaction state — none of the transaction's
writes is applied. -/
theorem relayCore_commitFailed
    (clock : Clock) (env : RelayEnv) (ev : MessageEvent)
    (cfg : GuildConfig) (vu : VerifiedUser) (sourceLang : String)
    (s1 : RelayState)
    (hsrc : sourceLang ∈ LANGUAGE_CODES)
    (hu : ¬ (rolloverUser clock.monthStart vu).monthlyCharacterUsage +
        ev.content.length * numTargetLanguages cfg.enabledLanguages sourceLang >
        getEffectiveUserLimit
          (if (s1.globalUser.getD defaultGlobalUser).subscriptionTier = ""
           then "free" else (s1.globalUser.getD defaultGlobalUser).subscriptionTier)
          (rolloverConfig clock.monthStart cfg).subscriptionTier)
    (hgl : ¬ (rolloverConfig clock.monthStart cfg).monthlyCharacterUsage +
        ev.content.length * numTargetLanguages cfg.enabledLanguages sourceLang >
        (getTierLimits (rolloverConfig clock.monthStart cfg).subscriptionTier).perGuild)
    (htr : env.transOk = true)
    (hfo : (fanOut env.webhookFor env.sendOk
        ((getOtherLanguages sourceLang).map
          (fun l => (l, env.translate ev.content l)))).2 = true)
    (htx : env.txOk = false) :
    relayCore clock env ev cfg vu sourceLang s1 =
      ⟨.commitFailed,
       { s1 with
         globalUser := some (s1.globalUser.getD defaultGlobalUser),
         verifiedUser := some (rolloverUser clock.monthStart vu),
         config := some (rolloverConfig clock.monthStart cfg) },
       (fanOut env.webhookFor env.sendOk
         ((getOtherLanguages sourceLang).map
           (fun l => (l, env.translate ev.content l)))).1⟩ := by
  unfold relayCore translateToAllLanguages defaultGlobalUser
  unfold defaultGlobalUser at hu
  simp only [if_pos hsrc, if_neg hu, if_neg hgl, htr, htx,
    Bool.not_true, Bool.false_eq_true, if_false, hfo, if_true,
    Bool.not_false, ite_true]


theorem relayCore_userLimit
    (clock : Clock) (env : RelayEnv) (ev : MessageEvent)
    (cfg : GuildConfig) (vu : VerifiedUser) (sourceLang : String)
    (s1 : RelayState)
    (hu : (rolloverUser clock.monthStart vu).monthlyCharacterUsage +
        ev.content.length * numTargetLanguages cfg.enabledLanguages sourceLang >
        getEffectiveUserLimit
          (if (s1.globalUser.getD defaultGlobalUser).subscriptionTier = ""
           then "free" else (s1.globalUser.getD defaultGlobalUser).subscriptionTier)
          (rolloverConfig clock.monthStart cfg).subscriptionTier) :
    relayCore clock env ev cfg vu sourceLang s1 =
      ⟨.userLimitExceeded,
       { s1 with
         globalUser := some (s1.globalUser.getD defaultGlobalUser),
         verifiedUser := some (rolloverUser clock.monthStart vu),
         config := some (rolloverConfig clock.monthStart cfg) }, []⟩ := by
  unfold relayCore defaultGlobalUser
  unfold defaultGlobalUser at hu
  simp only [if_pos hu]

theorem relayCore_guildLimit
    (clock : Clock) (env : RelayEnv) (ev : MessageEvent)
    (cfg : GuildConfig) (vu : VerifiedUser) (sourceLang : String)
    (s1 : RelayState)
    (hu : ¬ (rolloverUser clock.monthStart vu).monthlyCharacterUsage +
        ev.content.length * numTargetLanguages cfg.enabledLanguages sourceLang >
        getEffectiveUserLimit
          (if (s1.globalUser.getD defaultGlobalUser).subscriptionTier = ""
           then "free" else (s1.globalUser.getD defaultGlobalUser).subscriptionTier)
          (rolloverConfig clock.monthStart cfg).subscriptionTier)
    (hgl : (rolloverConfig clock.monthStart cfg).monthlyCharacterUsage +
        ev.content.length * numTargetLanguages cfg.enabledLanguages sourceLang >
        (getTierLimits (rolloverConfig clock.monthStart cfg).subscriptionTier).perGuild) :
    relayCore clock env ev cfg vu sourceLang s1 =
      ⟨.guildLimitExceeded,
       { s1 with
         globalUser := some (s1.globalUser.getD defaultGlobalUser),
         verifiedUser := some (rolloverUser clock.monthStart vu),
         config := some (rolloverConfig clock.monthStart cfg) }, []⟩ := by
  unfold relayCore defaultGlobalUser
  unfold defaultGlobalUser at hu
  simp only [if_neg hu, if_pos hgl]

theorem mem_insertChannel {q : String × String}
    {m : List (String × String)} {cid lang : String}
    (hq : q ∈ insertChannel m cid lang) : q ∈ m ∨ q = (cid, lang) := by
  unfold insertChannel at hq
  split at hq
  · obtain ⟨r, hr, hre⟩ := List.mem_map.mp hq
    by_cases h2 : (r.1 == cid) = true
    · right; rw [if_pos h2] at hre; exact hre.symm
    · left; rw [if_neg h2] at hre; exact hre ▸ hr
  · rcases List.mem_append.mp hq with h1 | h1
    · exact Or.inl h1
    · right; simpa using h1

theorem mem_addChannel {q : String × String} {e : List String}
    {m : List (String × String)} {cid : Option String} {lang : String}
    (hq : q ∈ addChannel e m cid lang) : q ∈ m ∨ q.2 = lang := by
  cases cid with
  | none => simp only [addChannel] at hq; exact Or.inl hq
  | some c =>
    simp only [addChannel] at hq
    by_cases h : c ≠ "" ∧ (e = [] ∨ lang ∈ e)
    · rw [if_pos h] at hq
      rcases mem_insertChannel hq with h1 | h1
      · exact Or.inl h1
      · right; rw [h1]
    · rw [if_neg h] at hq; exact Or.inl hq

theorem snd_mem_buildChannelMap {cfg : GuildConfig} {q : String × String}
    (hq : q ∈ buildChannelMap cfg) : q.2 ∈ LANGUAGE_CODES := by
  have step : ∀ {m : List (String × String)} {cid : Option String} {lang : String},
      q ∈ addChannel cfg.enabledLanguages m cid lang → lang ∈ LANGUAGE_CODES →
      q ∈ m ∨ q.2 ∈ LANGUAGE_CODES := by
    intro m cid lang h hl
    rcases mem_addChannel h with h | h
    · exact Or.inl h
    · right; rw [h]; exact hl
  unfold buildChannelMap at hq
  rcases step hq (by decide) with hq | hf; swap; · exact hf
  rcases step hq (by decide) with hq | hf; swap; · exact hf
  rcases step hq (by decide) with hq | hf; swap; · exact hf
  rcases step hq (by decide) with hq | hf; swap; · exact hf
  rcases step hq (by decide) with hq | hf; swap; · exact hf
  rcases step hq (by decide) with hq | hf; swap; · exact hf
  rcases step hq (by decide) with hq | hf; swap; · exact hf
  rcases step hq (by decide) with hq | hf; swap; · exact hf
  rcases step hq (by decide) with hq | hf; swap; · exact hf
  exact absurd hq (List.not_mem_nil q)

theorem lookupChannel_mem_codes {cfg : GuildConfig} {cid lang : String}
    (h : lookupChannel (buildChannelMap cfg) cid = some lang) :
    lang ∈ LANGUAGE_CODES := by
  unfold lookupChannel at h
  obtain ⟨p, hfind, hp2⟩ := Option.map_eq_some'.mp h
  have hmem := List.mem_of_find?_eq_some hfind
  exact hp2 ▸ snd_mem_buildChannelMap hmem


theorem sweep_expired_inactive
    {now : Int} {g u : String} {bans : List Ban} {b : Ban}
    (hmem : b ∈ sweepBans now g u bans) (hg : b.guildId = g)
    (hu : b.discordId = u) (hexp : banExpired now b = true) :
    b.active = false := by
  unfold sweepBans at hmem
  obtain ⟨a, _, hfa⟩ := List.mem_map.mp hmem
  by_cases hact : b.active = true
  · exfalso
    split at hfa
    · rw [← hfa] at hact; simp at hact
    · rename_i hcond
      rw [hfa] at hcond
      simp only [hg, hu, hact, hexp, beq_self_eq_true, Bool.and_self,
        Bool.and_true, Bool.true_and, not_true] at hcond
  · simpa using hact

/-- C8: the ban-status read is lazily expiring — after `getActiveBan`,
every ban of the queried (guild, user) pair whose `expiresAt` has passed is
inactive in the store, and any ban the query reports is active, unexpired
and belongs to the pair; hence a ban whose expiry is in the past is never
reported as active, whether or not an explicit unban ever occurred. -/
theorem ban_query_lazy_expiry
    (now : Int) (g u : String) (bans : List Ban) (b : Ban) :
    (b ∈ (getActiveBan now g u bans).1 → b.guildId = g → b.discordId = u →
      banExpired now b = true → b.active = false) ∧
    ((getActiveBan now g u bans).2 = some b →
      b.active = true ∧ banExpired now b = false ∧ b.guildId = g ∧ b.discordId = u) := by
  constructor
  · intro hmem hg hu hexp
    exact sweep_expired_inactive hmem hg hu hexp
  · intro hfind
    have hp := List.find?_some hfind
    have hmem := List.mem_of_find?_eq_some hfind
    simp only [Bool.and_eq_true, beq_iff_eq] at hp
    obtain ⟨⟨hg, hu⟩, hact⟩ := hp
    refine ⟨hact, ?_, hg, hu⟩
    by_cases hexp : banExpired now b = true
    · exact absurd (sweep_expired_inactive hmem hg hu hexp) (by simp [hact])
    · simpa using hexp

theorem ban_query_lazy_expiry_witness :
    (Ban.mk "g" "u" false (some 50)).active = false ∧
    (getActiveBan 100 "g" "u" [⟨"g", "u", true, some 50⟩]).2 = none :=
  ⟨(ban_query_lazy_expiry 100 "g" "u" [⟨"g", "u", true, some 50⟩]
      ⟨"g", "u", false, some 50⟩).1 (by decide) rfl rfl (by decide),
   by decide⟩

/-- C10: a timeout with duration 0 creates a PERMANENT ban — because
`banUser` computes the expiry only when the duration value is truthy
(non-zero), `timeoutUser(.., 0)` stores `expiresAt = null`; and the
duration string "0s" parses to 0, not to a rejection. -/
theorem timeout_zero_is_permanent
    (now : Int) (g u : String) (bans : List Ban)
    (hno : (getActiveBan now g u bans).2 = none) :
    timeoutUser now g u 0 bans =
      (some none, sweepBans now g u bans ++ [⟨g, u, true, none⟩]) ∧
    parseDuration "0s" = some 0 := by
  refine ⟨?_, by decide⟩
  unfold getActiveBan at hno
  simp only at hno
  unfold timeoutUser banUser getActiveBan
  simp only [hno]
  simp

theorem timeout_zero_is_permanent_witness :
    (getActiveBan 0 "g" "u" []).2 = none ∧
    timeoutUser 0 "g" "u" 0 [] =
      (some none, sweepBans 0 "g" "u" [] ++ [⟨"g", "u", true, none⟩]) :=
  ⟨rfl, (timeout_zero_is_permanent 0 "g" "u" [] rfl).1⟩

/-- C3: the translation gateway ignores the enabled-language subset —
`translateToAllLanguages` produces one translation per language of the
FULL table minus the source (its key set is `getOtherLanguages`), which
differs from the spec-mandated target set `specEnabledTargets` when a
proper subset (here [EN, ES]) is configured.  The claim fails on the code:
the call site passes the enabled subset as a third argument the function
does not declare. -/
theorem translation_targets_ignore_enabled_subset :
    ((translateToAllLanguages (fun t _ => t) "hello" "EN").map
      (fun r => r.1.map (fun p => p.1))) = some (getOtherLanguages "EN") ∧
    specEnabledTargets ["EN", "ES"] "EN" = ["ES"] ∧
    getOtherLanguages "EN" = ["ES", "PT-BR", "FR", "DE", "IT", "JA", "KO", "ZH"] ∧
    getOtherLanguages "EN" ≠ specEnabledTargets ["EN", "ES"] "EN" :=
  ⟨rfl, rfl, rfl, by decide⟩


theorem findOldest_min (best : CacheEntry) (l : List CacheEntry) :
    (findOldest best l).lastUsed ≤ best.lastUsed ∧
    ∀ e ∈ l, (findOldest best l).lastUsed ≤ e.lastUsed := by
  induction l generalizing best with
  | nil => exact ⟨le_refl _, by simp⟩
  | cons e rest ih =>
    simp only [findOldest]
    by_cases h : e.lastUsed < best.lastUsed
    · rw [if_pos h]
      refine ⟨(ih e).1.trans (le_of_lt h), ?_⟩
      intro x hx
      rcases List.mem_cons.mp hx with hx | hx
      · rw [hx] at *; exact (ih e).1
      · exact (ih e).2 x hx
    · rw [if_neg h]
      refine ⟨(ih best).1, ?_⟩
      intro x hx
      rcases List.mem_cons.mp hx with hx | hx
      · rw [hx]; exact (ih best).1.trans (not_lt.mp h)
      · exact (ih best).2 x hx

theorem findOldest_mem (best : CacheEntry) (l : List CacheEntry) :
    findOldest best l = best ∨ findOldest best l ∈ l := by
  induction l generalizing best with
  | nil => simp [findOldest]
  | cons e rest ih =>
    simp only [findOldest]
    by_cases h : e.lastUsed < best.lastUsed
    · rw [if_pos h]
      rcases ih e with h1 | h1
      · right; rw [h1]; exact List.mem_cons_self e rest
      · right; exact List.mem_cons_of_mem e h1
    · rw [if_neg h]
      rcases ih best with h1 | h1
      · exact Or.inl h1
      · right; exact List.mem_cons_of_mem e h1

theorem acquire_length_le (now : Int) (k : String) (c : List CacheEntry)
    (h : c.length ≤ WEBHOOK_CACHE_MAX_SIZE) :
    (acquire now k c).length ≤ WEBHOOK_CACHE_MAX_SIZE := by
  unfold acquire WEBHOOK_CACHE_MAX_SIZE at *
  split
  · simpa using h
  · split
    · rename_i hcap
      cases c with
      | nil => simp at hcap
      | cons e rest =>
        have hmem : findOldest e rest ∈ e :: rest := by
          rcases findOldest_mem e rest with h1 | h1
          · rw [h1]; exact List.mem_cons_self e rest
          · exact List.mem_cons_of_mem e h1
        have herase := List.length_eraseP_of_mem hmem
          (p := fun x => x.key == (findOldest e rest).key) (by simp)
        simp only [evictOldestClient, List.length_append, herase,
          List.length_cons, List.length_nil] at *
        omega
    · rename_i hcap
      simp only [List.length_append, List.length_singleton]
      omega

/-- C9: the delivery cache is bounded and LRU — any sequence of acquires
starting from the empty cache keeps at most `WEBHOOK_CACHE_MAX_SIZE` (100)
entries; one acquire preserves the bound; a hit refreshes the entry's
timestamp in place without eviction; and a miss at capacity evicts exactly
one least-recently-used entry (minimal `lastUsed` over the whole cache)
before appending the new entry, leaving the size at 100. -/
theorem delivery_cache_bounded_lru
    (now : Int) (k : String) (c : List CacheEntry) (ops : List (Int × String)) :
    ((ops.foldl (fun acc p => acquire p.1 p.2 acc) []).length ≤ WEBHOOK_CACHE_MAX_SIZE) ∧
    (c.length ≤ WEBHOOK_CACHE_MAX_SIZE →
      (acquire now k c).length ≤ WEBHOOK_CACHE_MAX_SIZE) ∧
    ((c.any fun e => e.key == k) = true →
      acquire now k c =
        c.map (fun e => if e.key == k then { e with lastUsed := now } else e) ∧
      (acquire now k c).length = c.length) ∧
    ((c.any fun e => e.key == k) = false → c.length = WEBHOOK_CACHE_MAX_SIZE →
      ∃ lru, lru ∈ c ∧ (∀ e ∈ c, lru.lastUsed ≤ e.lastUsed) ∧
        acquire now k c = c.eraseP (fun x => x.key == lru.key) ++ [⟨k, now⟩] ∧
        (acquire now k c).length = WEBHOOK_CACHE_MAX_SIZE) := by
  refine ⟨?_, acquire_length_le now k c, ?_, ?_⟩
  · have gen : ∀ (l : List (Int × String)) (acc : List CacheEntry),
        acc.length ≤ WEBHOOK_CACHE_MAX_SIZE →
        (l.foldl (fun acc p => acquire p.1 p.2 acc) acc).length ≤
          WEBHOOK_CACHE_MAX_SIZE := by
      intro l
      induction l with
      | nil => intro acc h; simpa using h
      | cons p rest ih =>
        intro acc h
        exact ih (acquire p.1 p.2 acc) (acquire_length_le p.1 p.2 acc h)
    exact gen ops [] (by simp [WEBHOOK_CACHE_MAX_SIZE])
  · intro hhit
    unfold acquire
    rw [if_pos hhit]
    exact ⟨rfl, by simp⟩
  · intro hmiss hlen
    cases c with
    | nil => simp [WEBHOOK_CACHE_MAX_SIZE] at hlen
    | cons e rest =>
      refine ⟨findOldest e rest, ?_, ?_, ?_, ?_⟩
      · rcases findOldest_mem e rest with h1 | h1
        · rw [h1]; exact List.mem_cons_self e rest
        · exact List.mem_cons_of_mem e h1
      · intro x hx
        rcases List.mem_cons.mp hx with hx | hx
        · rw [hx]; exact (findOldest_min e rest).1
        · exact (findOldest_min e rest).2 x hx
      · unfold acquire
        rw [if_neg (by simp [hmiss]), if_pos (le_of_eq hlen.symm)]
        rfl
      · have hmem : findOldest e rest ∈ e :: rest := by
          rcases findOldest_mem e rest with h1 | h1
          · rw [h1]; exact List.mem_cons_self e rest
          · exact List.mem_cons_of_mem e h1
        have herase := List.length_eraseP_of_mem hmem
          (p := fun x => x.key == (findOldest e rest).key) (by simp)
        unfold acquire
        rw [if_neg (by simp [hmiss]), if_pos (le_of_eq hlen.symm)]
        show ((e :: rest).eraseP (fun x : CacheEntry => x.key == (findOldest e rest).key)
          ++ [(⟨k, now⟩ : CacheEntry)]).length = WEBHOOK_CACHE_MAX_SIZE
        simp only [List.length_append, herase, List.length_cons, List.length_nil]
        simp only [List.length_cons] at hlen
        omega

/-- A 100-entry cache used to exercise the eviction path concretely. -/
def exampleFullCache : List CacheEntry :=
  (List.range WEBHOOK_CACHE_MAX_SIZE).map (fun i => ⟨Nat.repr i, (i : Int) + 10⟩)

theorem delivery_cache_bounded_lru_witness :
    ((exampleFullCache.any fun e => e.key == "fresh") = false) ∧
    exampleFullCache.length = WEBHOOK_CACHE_MAX_SIZE ∧
    (∃ lru, lru ∈ exampleFullCache ∧
      (∀ e ∈ exampleFullCache, lru.lastUsed ≤ e.lastUsed) ∧
      acquire 999 "fresh" exampleFullCache =
        exampleFullCache.eraseP (fun x => x.key == lru.key) ++ [⟨"fresh", 999⟩] ∧
      (acquire 999 "fresh" exampleFullCache).length = WEBHOOK_CACHE_MAX_SIZE) ∧
    (exampleFullCache.length ≤ WEBHOOK_CACHE_MAX_SIZE →
      (acquire 999 "fresh" exampleFullCache).length ≤ WEBHOOK_CACHE_MAX_SIZE) :=
  ⟨by decide, by decide,
   (delivery_cache_bounded_lru 999 "fresh" exampleFullCache []).2.2.2
     (by decide) (by decide),
   (delivery_cache_bounded_lru 999 "fresh" exampleFullCache []).2.1⟩


theorem relayCore_within_limits_not_rejected
    (clock : Clock) (env : RelayEnv) (ev : MessageEvent)
    (cfg : GuildConfig) (vu : VerifiedUser) (sourceLang : String)
    (s1 : RelayState)
    (hu : ¬ (rolloverUser clock.monthStart vu).monthlyCharacterUsage +
        ev.content.length * numTargetLanguages cfg.enabledLanguages sourceLang >
        getEffectiveUserLimit
          (if (s1.globalUser.getD defaultGlobalUser).subscriptionTier = ""
           then "free" else (s1.globalUser.getD defaultGlobalUser).subscriptionTier)
          (rolloverConfig clock.monthStart cfg).subscriptionTier)
    (hgl : ¬ (rolloverConfig clock.monthStart cfg).monthlyCharacterUsage +
        ev.content.length * numTargetLanguages cfg.enabledLanguages sourceLang >
        (getTierLimits (rolloverConfig clock.monthStart cfg).subscriptionTier).perGuild) :
    (relayCore clock env ev cfg vu sourceLang s1).outcome ≠ .userLimitExceeded ∧
    (relayCore clock env ev cfg vu sourceLang s1).outcome ≠ .guildLimitExceeded := by
  unfold relayCore
  unfold defaultGlobalUser at hu
  rw [if_neg hu, if_neg hgl]
  constructor <;>
  · split
    · simp
    · split
      · simp
      · rename_i x trs snd heq
        cases hfo : (fanOut env.webhookFor env.sendOk trs).2 <;>
          simp only [hfo, Bool.not_false, Bool.not_true, if_true, if_false,
            ite_true, ite_false] <;>
          first
          | (solve | simp)
          | (cases htx : env.txOk <;> simp [htx])

/-- C5: for an event passing every earlier gate, the effective user limit
equals the maximum of the personal-tier and tenant-tier per-user limits;
the event is rejected for budget reasons if and only if the post-rollover
user usage plus the character cost strictly exceeds that effective limit
or the post-rollover tenant usage plus the cost strictly exceeds the
tenant tier's per-guild limit (so a cost landing exactly on a limit is
admitted); and a budget rejection leaves the ledger at its rolled-over
values with no usage increment and no log entry. -/
theorem effective_limit_policy_and_rejection
    (clock : Clock) (env : RelayEnv) (ev : MessageEvent) (s : RelayState)
    (cfg : GuildConfig) (vu : VerifiedUser) (sourceLang : String)
    (hbot : ev.authorBot = false) (hweb : ev.fromWebhook = false)
    (hg : ev.inGuild = true)
    (hblank : ev.content.data.all (fun c => c.isWhitespace) = false)
    (hcfg : s.config = some cfg) (hcat : cfg.categoryId.getD "" ≠ "")
    (hchan : lookupChannel (buildChannelMap cfg) ev.channelId = some sourceLang)
    (hvu : s.verifiedUser = some vu) (him : vu.immersionEnabled = true)
    (hban : (getActiveBan clock.ms ev.guildId ev.authorId s.bans).2 = none) :
    let gu := s.globalUser.getD defaultGlobalUser
    let userTier := if gu.subscriptionTier = "" then "free" else gu.subscriptionTier
    let vu1 := rolloverUser clock.monthStart vu
    let cfg1 := rolloverConfig clock.monthStart cfg
    let cost := ev.content.length * numTargetLanguages cfg.enabledLanguages sourceLang
    let r := relayEvent clock env ev s
    (getEffectiveUserLimit userTier cfg1.subscriptionTier =
      Nat.max ((userSubscriptionTierLimits userTier).getD ⟨5000, 0⟩).perUser
              ((subscriptionTierLimits cfg1.subscriptionTier).getD ⟨5000, 25000⟩).perUser) ∧
    ((r.outcome = .userLimitExceeded ∨ r.outcome = .guildLimitExceeded) ↔
      (vu1.monthlyCharacterUsage + cost >
         getEffectiveUserLimit userTier cfg1.subscriptionTier ∨
       cfg1.monthlyCharacterUsage + cost >
         (getTierLimits cfg1.subscriptionTier).perGuild)) ∧
    ((r.outcome = .userLimitExceeded ∨ r.outcome = .guildLimitExceeded) →
      r.state = { s with
        bans := (getActiveBan clock.ms ev.guildId ev.authorId s.bans).1,
        globalUser := some gu, verifiedUser := some vu1, config := some cfg1 }) := by
  intro gu userTier vu1 cfg1 cost r
  have hrw : r = relayCore clock env ev cfg vu sourceLang
      { s with bans := (getActiveBan clock.ms ev.guildId ev.authorId s.bans).1 } :=
    relayEvent_gates clock env ev s cfg vu sourceLang
      hbot hweb hg hblank hcfg hcat hchan hvu him hban
  refine ⟨rfl, ?_, ?_⟩
  · constructor
    · intro h
      by_contra hno
      push_neg at hno
      have hnr := relayCore_within_limits_not_rejected clock env ev cfg vu sourceLang
        { s with bans := (getActiveBan clock.ms ev.guildId ev.authorId s.bans).1 }
        (by exact not_lt.mpr hno.1) (by exact not_lt.mpr hno.2)
      rw [hrw] at h
      rcases h with h | h
      · exact hnr.1 h
      · exact hnr.2 h
    · intro h
      by_cases huover : vu1.monthlyCharacterUsage + cost >
          getEffectiveUserLimit userTier cfg1.subscriptionTier
      · left
        rw [hrw, relayCore_userLimit clock env ev cfg vu sourceLang
          { s with bans := (getActiveBan clock.ms ev.guildId ev.authorId s.bans).1 }
          huover]
      · right
        have hgover : cfg1.monthlyCharacterUsage + cost >
            (getTierLimits cfg1.subscriptionTier).perGuild := by
          rcases h with h | h
          · exact absurd h huover
          · exact h
        rw [hrw, relayCore_guildLimit clock env ev cfg vu sourceLang
          { s with bans := (getActiveBan clock.ms ev.guildId ev.authorId s.bans).1 }
          huover hgover]
  · intro h
    by_cases huover : vu1.monthlyCharacterUsage + cost >
        getEffectiveUserLimit userTier cfg1.subscriptionTier
    · rw [hrw, relayCore_userLimit clock env ev cfg vu sourceLang
        { s with bans := (getActiveBan clock.ms ev.guildId ev.authorId s.bans).1 }
        huover]
    · have hgover : cfg1.monthlyCharacterUsage + cost >
          (getTierLimits cfg1.subscriptionTier).perGuild := by
        have hnr := relayCore_within_limits_not_rejected clock env ev cfg vu sourceLang
          { s with bans := (getActiveBan clock.ms ev.guildId ev.authorId s.bans).1 }
          huover
        by_contra hg2
        rw [hrw] at h
        rcases h with h | h
        · exact (hnr hg2).1 h
        · exact (hnr hg2).2 h
      rw [hrw, relayCore_guildLimit clock env ev cfg vu sourceLang
        { s with bans := (getActiveBan clock.ms ev.guildId ev.authorId s.bans).1 }
        huover hgover]

/-- Concrete guild configuration used by witnesses: all nine channels set,
no enabled-language subset (all enabled), free tier, fresh counters. -/
def cfgA : GuildConfig :=
  { categoryId := some "cat",
    englishChannelId := some "chEN", spanishChannelId := some "chES",
    portugueseChannelId := some "chPT", frenchChannelId := some "chFR",
    germanChannelId := some "chDE", italianChannelId := some "chIT",
    japaneseChannelId := some "chJA", koreanChannelId := some "chKO",
    chineseChannelId := some "chZH",
    enabledLanguages := [], subscriptionTier := "free",
    monthlyCharacterUsage := 0, usageResetDate := 0 }

/-- Same configuration with all nine languages explicitly enabled. -/
def cfgB : GuildConfig := { cfgA with enabledLanguages := LANGUAGE_CODES }

/-- A fresh verified user: no usage, no streak, never active. -/
def vuA : VerifiedUser := ⟨0, 0, 0, 0, none, 0, true⟩

def stateA : RelayState := ⟨some cfgA, some vuA, none, [], []⟩

def stateB : RelayState := ⟨some cfgB, some vuA, none, [], []⟩

def clockA : Clock := ⟨1000, 10, 0⟩

/-- Collaborators all succeeding. -/
def envAllOk : RelayEnv := ⟨fun t _ => t, true, fun _ => true, fun _ => true, true⟩

/-- A user whose prior usage makes a one-character message land exactly on
the free per-user limit: 4992 + 1 * 8 = 5000. -/
def vuBoundary : VerifiedUser := ⟨4992, 0, 0, 0, none, 0, true⟩

def stateBoundary : RelayState := ⟨some cfgA, some vuBoundary, none, [], []⟩

def evBoundary : MessageEvent := ⟨false, false, true, "h", "chEN", "g1", "u1"⟩

/-- A 100-character message, the end-to-end example of the spec. -/
def msg100 : String := String.mk (List.replicate 100 'a')

def evE2E : MessageEvent := ⟨false, false, true, msg100, "chEN", "g1", "u1"⟩

theorem effective_limit_policy_and_rejection_witness :
    getEffectiveUserLimit "free" "free" = Nat.max 5000 5000 ∧
    vuBoundary.monthlyCharacterUsage +
      ("h" : String).length * numTargetLanguages [] "EN" = 5000 ∧
    ¬((relayEvent clockA envAllOk evBoundary stateBoundary).outcome = .userLimitExceeded ∨
      (relayEvent clockA envAllOk evBoundary stateBoundary).outcome = .guildLimitExceeded) := by
  have h := effective_limit_policy_and_rejection clockA envAllOk evBoundary stateBoundary
    cfgA vuBoundary "EN" rfl rfl rfl (by decide) rfl (by decide) (by decide) rfl rfl rfl
  refine ⟨h.1, by decide, ?_⟩
  intro hc
  exact absurd (h.2.1.mp hc) (by decide)

/-- C4: a fully successful relay increases the user and tenant monthly
counters by exactly `len(text) * targetLanguageCount`, where the target
count is the enabled subset minus the source language (or the full table
minus one when no subset is configured), increments `totalTranslations`
by one and recomputes the streak.  Its witness is the spec's end-to-end
example: free tier, 0 prior usage, 9 enabled languages, a 100-character
message from the English channel — cost 800, both counters 800,
`totalTranslations = 1`, `currentStreak = 1`. -/
theorem relay_increments_exact_cost
    (clock : Clock) (env : RelayEnv) (ev : MessageEvent) (s : RelayState)
    (cfg : GuildConfig) (vu : VerifiedUser) (sourceLang : String)
    (hbot : ev.authorBot = false) (hweb : ev.fromWebhook = false)
    (hg : ev.inGuild = true)
    (hblank : ev.content.data.all (fun c => c.isWhitespace) = false)
    (hcfg : s.config = some cfg) (hcat : cfg.categoryId.getD "" ≠ "")
    (hchan : lookupChannel (buildChannelMap cfg) ev.channelId = some sourceLang)
    (hvu : s.verifiedUser = some vu) (him : vu.immersionEnabled = true)
    (hban : (getActiveBan clock.ms ev.guildId ev.authorId s.bans).2 = none)
    (hu : ¬ (rolloverUser clock.monthStart vu).monthlyCharacterUsage +
        ev.content.length * numTargetLanguages cfg.enabledLanguages sourceLang >
        getEffectiveUserLimit
          (if (s.globalUser.getD defaultGlobalUser).subscriptionTier = ""
           then "free" else (s.globalUser.getD defaultGlobalUser).subscriptionTier)
          (rolloverConfig clock.monthStart cfg).subscriptionTier)
    (hgl : ¬ (rolloverConfig clock.monthStart cfg).monthlyCharacterUsage +
        ev.content.length * numTargetLanguages cfg.enabledLanguages sourceLang >
        (getTierLimits (rolloverConfig clock.monthStart cfg).subscriptionTier).perGuild)
    (htr : env.transOk = true)
    (hfo : (fanOut env.webhookFor env.sendOk
        ((getOtherLanguages sourceLang).map
          (fun l => (l, env.translate ev.content l)))).2 = true)
    (htx : env.txOk = true) :
    let vu1 := rolloverUser clock.monthStart vu
    let cfg1 := rolloverConfig clock.monthStart cfg
    let cost := ev.content.length * numTargetLanguages cfg.enabledLanguages sourceLang
    let r := relayEvent clock env ev s
    cost = ev.content.length *
      (if cfg.enabledLanguages.length > 0
       then (cfg.enabledLanguages.filter (fun l => l ≠ sourceLang)).length
       else LANGUAGE_CODES.length - 1) ∧
    r.outcome = .committed ∧
    r.state.verifiedUser.map (fun u => u.monthlyCharacterUsage) =
      some (vu1.monthlyCharacterUsage + cost) ∧
    r.state.config.map (fun c => c.monthlyCharacterUsage) =
      some (cfg1.monthlyCharacterUsage + cost) ∧
    r.state.verifiedUser.map (fun u => u.totalTranslations) =
      some (vu1.totalTranslations + 1) ∧
    r.state.verifiedUser.map (fun u => u.currentStreak) =
      some (updateStreak clock.day vu1.lastActiveDate
        vu1.currentStreak vu1.longestStreak).1 := by
  intro vu1 cfg1 cost r
  have hsrc := lookupChannel_mem_codes hchan
  have hrw : r = relayCore clock env ev cfg vu sourceLang
      { s with bans := (getActiveBan clock.ms ev.guildId ev.authorId s.bans).1 } :=
    relayEvent_gates clock env ev s cfg vu sourceLang
      hbot hweb hg hblank hcfg hcat hchan hvu him hban
  rw [hrw, relayCore_committed clock env ev cfg vu sourceLang
    { s with bans := (getActiveBan clock.ms ev.guildId ev.authorId s.bans).1 }
    hsrc hu hgl htr hfo htx]
  exact ⟨rfl, rfl, rfl, rfl, rfl, rfl⟩

theorem relay_increments_exact_cost_witness :
    msg100.length * numTargetLanguages LANGUAGE_CODES "EN" = 800 ∧
    (relayEvent clockA envAllOk evE2E stateB).outcome = .committed ∧
    (relayEvent clockA envAllOk evE2E stateB).state.verifiedUser.map
      (fun u => u.monthlyCharacterUsage) = some 800 ∧
    (relayEvent clockA envAllOk evE2E stateB).state.config.map
      (fun c => c.monthlyCharacterUsage) = some 800 ∧
    (relayEvent clockA envAllOk evE2E stateB).state.verifiedUser.map
      (fun u => u.totalTranslations) = some 1 ∧
    (relayEvent clockA envAllOk evE2E stateB).state.verifiedUser.map
      (fun u => u.currentStreak) = some 1 := by
  have h := relay_increments_exact_cost clockA envAllOk evE2E stateB
    cfgB vuA "EN" rfl rfl rfl (by decide) rfl (by decide) (by decide) rfl rfl rfl
    (by decide) (by decide) rfl (by decide) rfl
  exact ⟨by decide, h.2.1, h.2.2.1, h.2.2.2.1, h.2.2.2.2.1, h.2.2.2.2.2⟩

def evA : MessageEvent := ⟨false, false, true, "hola", "chEN", "g1", "u1"⟩

/-- Collaborators all succeeding except the transaction commit. -/
def envTxFail : RelayEnv := ⟨fun t _ => t, true, fun _ => true, fun _ => true, false⟩

/-- C2: the accounting step is all-or-nothing — when the transaction
commits, the user counter/streak/`lastActiveDate`/`totalTranslations`
update, the tenant counter update, the appended usage-log entry and the
global user's lifetime counters are all applied; when the commit fails,
the outcome is `commitFailed` and the state is exactly the pre-transaction
state, with none of those writes applied. -/
theorem accounting_all_or_nothing
    (clock : Clock) (env : RelayEnv) (ev : MessageEvent) (s : RelayState)
    (cfg : GuildConfig) (vu : VerifiedUser) (sourceLang : String)
    (hbot : ev.authorBot = false) (hweb : ev.fromWebhook = false)
    (hg : ev.inGuild = true)
    (hblank : ev.content.data.all (fun c => c.isWhitespace) = false)
    (hcfg : s.config = some cfg) (hcat : cfg.categoryId.getD "" ≠ "")
    (hchan : lookupChannel (buildChannelMap cfg) ev.channelId = some sourceLang)
    (hvu : s.verifiedUser = some vu) (him : vu.immersionEnabled = true)
    (hban : (getActiveBan clock.ms ev.guildId ev.authorId s.bans).2 = none)
    (hu : ¬ (rolloverUser clock.monthStart vu).monthlyCharacterUsage +
        ev.content.length * numTargetLanguages cfg.enabledLanguages sourceLang >
        getEffectiveUserLimit
          (if (s.globalUser.getD defaultGlobalUser).subscriptionTier = ""
           then "free" else (s.globalUser.getD defaultGlobalUser).subscriptionTier)
          (rolloverConfig clock.monthStart cfg).subscriptionTier)
    (hgl : ¬ (rolloverConfig clock.monthStart cfg).monthlyCharacterUsage +
        ev.content.length * numTargetLanguages cfg.enabledLanguages sourceLang >
        (getTierLimits (rolloverConfig clock.monthStart cfg).subscriptionTier).perGuild)
    (htr : env.transOk = true)
    (hfo : (fanOut env.webhookFor env.sendOk
        ((getOtherLanguages sourceLang).map
          (fun l => (l, env.translate ev.content l)))).2 = true) :
    let gu := s.globalUser.getD defaultGlobalUser
    let vu1 := rolloverUser clock.monthStart vu
    let cfg1 := rolloverConfig clock.monthStart cfg
    let cost := ev.content.length * numTargetLanguages cfg.enabledLanguages sourceLang
    let trs := (getOtherLanguages sourceLang).map
        (fun l => (l, env.translate ev.content l))
    let streaks := updateStreak clock.day vu1.lastActiveDate
        vu1.currentStreak vu1.longestStreak
    let r := relayEvent clock env ev s
    (env.txOk = true →
      r.outcome = .committed ∧
      r.state.verifiedUser = some { vu1 with
        monthlyCharacterUsage := vu1.monthlyCharacterUsage + cost,
        currentStreak := streaks.1, longestStreak := streaks.2,
        lastActiveDate := some clock.day,
        totalTranslations := vu1.totalTranslations + 1 } ∧
      r.state.config = some { cfg1 with
        monthlyCharacterUsage := cfg1.monthlyCharacterUsage + cost } ∧
      r.state.usageLogs = s.usageLogs ++
        [⟨ev.guildId, ev.authorId, sourceLang, joinTargets trs, cost⟩] ∧
      r.state.globalUser = some { gu with
        totalTranslationsAllTime := gu.totalTranslationsAllTime + 1,
        totalCharactersAllTime := gu.totalCharactersAllTime + cost }) ∧
    (env.txOk = false →
      r.outcome = .commitFailed ∧
      r.state = { s with
        bans := (getActiveBan clock.ms ev.guildId ev.authorId s.bans).1,
        globalUser := some gu, verifiedUser := some vu1, config := some cfg1 }) := by
  intro gu vu1 cfg1 cost trs streaks r
  have hsrc := lookupChannel_mem_codes hchan
  have hrw : r = relayCore clock env ev cfg vu sourceLang
      { s with bans := (getActiveBan clock.ms ev.guildId ev.authorId s.bans).1 } :=
    relayEvent_gates clock env ev s cfg vu sourceLang
      hbot hweb hg hblank hcfg hcat hchan hvu him hban
  constructor
  · intro htx
    rw [hrw, relayCore_committed clock env ev cfg vu sourceLang
      { s with bans := (getActiveBan clock.ms ev.guildId ev.authorId s.bans).1 }
      hsrc hu hgl htr hfo htx]
    exact ⟨rfl, rfl, rfl, rfl, rfl⟩
  · intro htx
    rw [hrw, relayCore_commitFailed clock env ev cfg vu sourceLang
      { s with bans := (getActiveBan clock.ms ev.guildId ev.authorId s.bans).1 }
      hsrc hu hgl htr hfo htx]
    exact ⟨rfl, rfl⟩

theorem accounting_all_or_nothing_witness :
    (relayEvent clockA envTxFail evA stateA).outcome = .commitFailed ∧
    (relayEvent clockA envTxFail evA stateA).state =
      ⟨some cfgA, some vuA, some defaultGlobalUser, [], []⟩ :=
  (accounting_all_or_nothing clockA envTxFail evA stateA cfgA vuA "EN"
    rfl rfl rfl (by decide) rfl (by decide) (by decide) rfl rfl rfl
    (by decide) (by decide) rfl (by decide)).2 rfl


/-- The four cases of the streak recomputation, in the spec's terms. -/
theorem updateStreak_cases (today last : Int) (cs ls : Nat) :
    (today - last = 0 → updateStreak today (some last) cs ls = (cs, ls)) ∧
    (today - last = 1 →
      updateStreak today (some last) cs ls = (cs + 1, Nat.max ls (cs + 1))) ∧
    (today - last > 1 → updateStreak today (some last) cs ls = (1, ls)) ∧
    updateStreak today none cs ls = (1, 1) := by
  refine ⟨?_, ?_, ?_, rfl⟩
  · intro h0; simp [updateStreak, h0]
  · intro h1
    simp only [updateStreak, h1]
    norm_num
    by_cases hlt : ls < cs + 1
    · simp [hlt, Nat.max_eq_right (le_of_lt hlt)]
    · simp [hlt, Nat.max_eq_left (not_lt.mp hlt)]
  · intro hgt
    have h0 : (today - last = 0) = False := by simp; omega
    have h1 : (today - last = 1) = False := by simp; omega
    simp [updateStreak, h0, h1]

/-- The rollover touches only the counter and the reset date. -/
theorem rolloverUser_preserves (u : VerifiedUser) (m : Int) :
    (rolloverUser m u).lastActiveDate = u.lastActiveDate ∧
    (rolloverUser m u).currentStreak = u.currentStreak ∧
    (rolloverUser m u).longestStreak = u.longestStreak ∧
    (rolloverUser m u).totalTranslations = u.totalTranslations := by
  unfold rolloverUser
  split <;> exact ⟨rfl, rfl, rfl, rfl⟩

/-- C7: for every successful relay event the streak update is exact:
no prior `lastActiveDate` gives `currentStreak = longestStreak = 1`;
a gap of 0 days leaves both unchanged; a gap of exactly 1 day increments
`currentStreak` and sets `longestStreak` to the maximum of the old
`longestStreak` and the new `currentStreak`; a gap above 1 day resets
`currentStreak` to 1 and leaves `longestStreak` unchanged. -/
theorem streak_update_exact
    (clock : Clock) (env : RelayEnv) (ev : MessageEvent) (s : RelayState)
    (cfg : GuildConfig) (vu : VerifiedUser) (sourceLang : String)
    (hbot : ev.authorBot = false) (hweb : ev.fromWebhook = false)
    (hg : ev.inGuild = true)
    (hblank : ev.content.data.all (fun c => c.isWhitespace) = false)
    (hcfg : s.config = some cfg) (hcat : cfg.categoryId.getD "" ≠ "")
    (hchan : lookupChannel (buildChannelMap cfg) ev.channelId = some sourceLang)
    (hvu : s.verifiedUser = some vu) (him : vu.immersionEnabled = true)
    (hban : (getActiveBan clock.ms ev.guildId ev.authorId s.bans).2 = none)
    (hu : ¬ (rolloverUser clock.monthStart vu).monthlyCharacterUsage +
        ev.content.length * numTargetLanguages cfg.enabledLanguages sourceLang >
        getEffectiveUserLimit
          (if (s.globalUser.getD defaultGlobalUser).subscriptionTier = ""
           then "free" else (s.globalUser.getD defaultGlobalUser).subscriptionTier)
          (rolloverConfig clock.monthStart cfg).subscriptionTier)
    (hgl : ¬ (rolloverConfig clock.monthStart cfg).monthlyCharacterUsage +
        ev.content.length * numTargetLanguages cfg.enabledLanguages sourceLang >
        (getTierLimits (rolloverConfig clock.monthStart cfg).subscriptionTier).perGuild)
    (htr : env.transOk = true)
    (hfo : (fanOut env.webhookFor env.sendOk
        ((getOtherLanguages sourceLang).map
          (fun l => (l, env.translate ev.content l)))).2 = true)
    (htx : env.txOk = true) :
    ∃ vu2 : VerifiedUser,
      (relayEvent clock env ev s).outcome = .committed ∧
      (relayEvent clock env ev s).state.verifiedUser = some vu2 ∧
      (vu.lastActiveDate = none →
        vu2.currentStreak = 1 ∧ vu2.longestStreak = 1) ∧
      (∀ last, vu.lastActiveDate = some last →
        (clock.day - last = 0 →
          vu2.currentStreak = vu.currentStreak ∧
          vu2.longestStreak = vu.longestStreak) ∧
        (clock.day - last = 1 →
          vu2.currentStreak = vu.currentStreak + 1 ∧
          vu2.longestStreak = Nat.max vu.longestStreak (vu.currentStreak + 1)) ∧
        (clock.day - last > 1 →
          vu2.currentStreak = 1 ∧ vu2.longestStreak = vu.longestStreak)) := by
  have hsrc := lookupChannel_mem_codes hchan
  have hU : updateStreak clock.day
      (rolloverUser clock.monthStart vu).lastActiveDate
      (rolloverUser clock.monthStart vu).currentStreak
      (rolloverUser clock.monthStart vu).longestStreak =
      updateStreak clock.day vu.lastActiveDate vu.currentStreak vu.longestStreak := by
    rw [(rolloverUser_preserves vu clock.monthStart).1,
      (rolloverUser_preserves vu clock.monthStart).2.1,
      (rolloverUser_preserves vu clock.monthStart).2.2.1]
  have hrw : relayEvent clock env ev s = relayCore clock env ev cfg vu sourceLang
      { s with bans := (getActiveBan clock.ms ev.guildId ev.authorId s.bans).1 } :=
    relayEvent_gates clock env ev s cfg vu sourceLang
      hbot hweb hg hblank hcfg hcat hchan hvu him hban
  rw [hrw, relayCore_committed clock env ev cfg vu sourceLang
    { s with bans := (getActiveBan clock.ms ev.guildId ev.authorId s.bans).1 }
    hsrc hu hgl htr hfo htx]
  refine ⟨_, rfl, rfl, ?_, ?_⟩
  · intro hnone
    have e := hU.trans (by rw [hnone])
    exact ⟨congrArg Prod.fst e, congrArg Prod.snd e⟩
  · intro last hlast
    have key := updateStreak_cases clock.day last vu.currentStreak vu.longestStreak
    refine ⟨?_, ?_, ?_⟩
    · intro h0
      have e := hU.trans ((by rw [hlast] :
        updateStreak clock.day vu.lastActiveDate vu.currentStreak vu.longestStreak =
        updateStreak clock.day (some last) vu.currentStreak vu.longestStreak).trans
        (key.1 h0))
      exact ⟨congrArg Prod.fst e, congrArg Prod.snd e⟩
    · intro h1
      have e := hU.trans ((by rw [hlast] :
        updateStreak clock.day vu.lastActiveDate vu.currentStreak vu.longestStreak =
        updateStreak clock.day (some last) vu.currentStreak vu.longestStreak).trans
        (key.2.1 h1))
      exact ⟨congrArg Prod.fst e, congrArg Prod.snd e⟩
    · intro hgt
      have e := hU.trans ((by rw [hlast] :
        updateStreak clock.day vu.lastActiveDate vu.currentStreak vu.longestStreak =
        updateStreak clock.day (some last) vu.currentStreak vu.longestStreak).trans
        (key.2.2.1 hgt))
      exact ⟨congrArg Prod.fst e, congrArg Prod.snd e⟩

/-- A user mid-streak: last active the day before `clockA.day`. -/
def vuStreak : VerifiedUser := ⟨0, 0, 3, 5, some 9, 7, true⟩

def stateC7 : RelayState := ⟨some cfgA, some vuStreak, none, [], []⟩

theorem streak_update_exact_witness :
    ∃ vu2 : VerifiedUser,
      (relayEvent clockA envAllOk evA stateC7).outcome = .committed ∧
      (relayEvent clockA envAllOk evA stateC7).state.verifiedUser = some vu2 ∧
      (vu2.currentStreak = 3 + 1 ∧ vu2.longestStreak = Nat.max 5 (3 + 1)) := by
  obtain ⟨vu2, h1, h2, _, h4⟩ := streak_update_exact clockA envAllOk evA stateC7
    cfgA vuStreak "EN" rfl rfl rfl (by decide) rfl (by decide) (by decide) rfl rfl rfl
    (by decide) (by decide) rfl (by decide) rfl
  exact ⟨vu2, h1, h2, (h4 9 rfl).2.1 (by decide)⟩


/-- Delivery environment for the fan-out failure scenario: only the ES and
FR channels have webhooks; the send to ES throws, the send to FR would
succeed. -/
def envEsFails : RelayEnv :=
  ⟨fun t _ => t, true,
   fun l => l == "ES" || l == "FR",
   fun l => l != "ES", true⟩

/-- C1: fan-out failures are NOT isolated — at a concrete input where the
send to ES throws while FR has a webhook and its send would succeed, the
handler aborts with `deliveryFailed`: nothing is delivered (FR included),
no usage-log entry is appended and neither monthly counter moves, because
the per-language loop has no try/catch and the exception skips the
transaction.  This falsifies the claim that one failed delivery leaves
the other N−1 deliveries and the single ledger update intact. -/
theorem fanout_failure_aborts_siblings_and_ledger :
    envEsFails.webhookFor "FR" = true ∧
    envEsFails.sendOk "FR" = true ∧
    "FR" ∈ getOtherLanguages "EN" ∧
    (relayEvent clockA envEsFails evA stateA).outcome = .deliveryFailed ∧
    (relayEvent clockA envEsFails evA stateA).delivered = [] ∧
    (relayEvent clockA envEsFails evA stateA).state.usageLogs = [] ∧
    (relayEvent clockA envEsFails evA stateA).state.verifiedUser.map
      (fun u => u.monthlyCharacterUsage) = some 0 ∧
    (relayEvent clockA envEsFails evA stateA).state.config.map
      (fun c => c.monthlyCharacterUsage) = some 0 ∧
    (relayEvent clockA envEsFails evA stateA).state.verifiedUser.map
      (fun u => u.totalTranslations) = some 0 :=
  ⟨rfl, rfl, by decide, rfl, rfl, rfl, rfl, rfl, rfl⟩


/-- C6: monthly rollover is idempotent — for two committed relay events in
the same month `m`, with both rows stale (`usageResetDate < m`), the first
event resets each monthly counter to 0, stamps `usageResetDate = m` and
accumulates its cost, and the second event does not reset again: after it,
both counters hold exactly `cost1 + cost2` and `usageResetDate` is still
`m`, independently for the user row and the tenant row. -/
theorem monthly_rollover_idempotent
    (clock1 clock2 : Clock) (env1 env2 : RelayEnv) (ev1 ev2 : MessageEvent)
    (s : RelayState) (cfg : GuildConfig) (vu : VerifiedUser)
    (src1 src2 : String) (m : Int)
    (hm1 : clock1.monthStart = m) (hm2 : clock2.monthStart = m)
    (hru : vu.usageResetDate < m) (hrc : cfg.usageResetDate < m)
    (hbot1 : ev1.authorBot = false) (hweb1 : ev1.fromWebhook = false)
    (hg1 : ev1.inGuild = true)
    (hblank1 : ev1.content.data.all (fun c => c.isWhitespace) = false)
    (hcfg : s.config = some cfg) (hcat : cfg.categoryId.getD "" ≠ "")
    (hchan1 : lookupChannel (buildChannelMap cfg) ev1.channelId = some src1)
    (hvu : s.verifiedUser = some vu) (him : vu.immersionEnabled = true)
    (hban1 : (getActiveBan clock1.ms ev1.guildId ev1.authorId s.bans).2 = none)
    (hu1 : ¬ (rolloverUser clock1.monthStart vu).monthlyCharacterUsage +
        ev1.content.length * numTargetLanguages cfg.enabledLanguages src1 >
        getEffectiveUserLimit
          (if (s.globalUser.getD defaultGlobalUser).subscriptionTier = ""
           then "free" else (s.globalUser.getD defaultGlobalUser).subscriptionTier)
          (rolloverConfig clock1.monthStart cfg).subscriptionTier)
    (hgl1 : ¬ (rolloverConfig clock1.monthStart cfg).monthlyCharacterUsage +
        ev1.content.length * numTargetLanguages cfg.enabledLanguages src1 >
        (getTierLimits (rolloverConfig clock1.monthStart cfg).subscriptionTier).perGuild)
    (htr1 : env1.transOk = true)
    (hfo1 : (fanOut env1.webhookFor env1.sendOk
        ((getOtherLanguages src1).map
          (fun l => (l, env1.translate ev1.content l)))).2 = true)
    (htx1 : env1.txOk = true)
    (hbot2 : ev2.authorBot = false) (hweb2 : ev2.fromWebhook = false)
    (hg2 : ev2.inGuild = true)
    (hblank2 : ev2.content.data.all (fun c => c.isWhitespace) = false)
    (hchan2 : lookupChannel (buildChannelMap cfg) ev2.channelId = some src2)
    (hban2 : (getActiveBan clock2.ms ev2.guildId ev2.authorId
        (sweepBans clock1.ms ev1.guildId ev1.authorId s.bans)).2 = none)
    (hu2 : ¬ 0 + ev1.content.length * numTargetLanguages cfg.enabledLanguages src1 +
        ev2.content.length * numTargetLanguages cfg.enabledLanguages src2 >
        getEffectiveUserLimit
          (if (s.globalUser.getD defaultGlobalUser).subscriptionTier = ""
           then "free" else (s.globalUser.getD defaultGlobalUser).subscriptionTier)
          cfg.subscriptionTier)
    (hgl2 : ¬ 0 + ev1.content.length * numTargetLanguages cfg.enabledLanguages src1 +
        ev2.content.length * numTargetLanguages cfg.enabledLanguages src2 >
        (getTierLimits cfg.subscriptionTier).perGuild)
    (htr2 : env2.transOk = true)
    (hfo2 : (fanOut env2.webhookFor env2.sendOk
        ((getOtherLanguages src2).map
          (fun l => (l, env2.translate ev2.content l)))).2 = true)
    (htx2 : env2.txOk = true) :
    (relayEvent clock1 env1 ev1 s).state.verifiedUser.map
      (fun u => u.usageResetDate) = some m ∧
    (relayEvent clock1 env1 ev1 s).state.verifiedUser.map
      (fun u => u.monthlyCharacterUsage) =
      some (ev1.content.length * numTargetLanguages cfg.enabledLanguages src1) ∧
    (relayEvent clock1 env1 ev1 s).state.config.map
      (fun c => c.usageResetDate) = some m ∧
    (relayEvent clock1 env1 ev1 s).state.config.map
      (fun c => c.monthlyCharacterUsage) =
      some (ev1.content.length * numTargetLanguages cfg.enabledLanguages src1) ∧
    (relayEvent clock2 env2 ev2
        (relayEvent clock1 env1 ev1 s).state).state.verifiedUser.map
      (fun u => u.usageResetDate) = some m ∧
    (relayEvent clock2 env2 ev2
        (relayEvent clock1 env1 ev1 s).state).state.verifiedUser.map
      (fun u => u.monthlyCharacterUsage) =
      some (ev1.content.length * numTargetLanguages cfg.enabledLanguages src1 +
            ev2.content.length * numTargetLanguages cfg.enabledLanguages src2) ∧
    (relayEvent clock2 env2 ev2
        (relayEvent clock1 env1 ev1 s).state).state.config.map
      (fun c => c.usageResetDate) = some m ∧
    (relayEvent clock2 env2 ev2
        (relayEvent clock1 env1 ev1 s).state).state.config.map
      (fun c => c.monthlyCharacterUsage) =
      some (ev1.content.length * numTargetLanguages cfg.enabledLanguages src1 +
            ev2.content.length * numTargetLanguages cfg.enabledLanguages src2) := by
  have hsrc1 := lookupChannel_mem_codes hchan1
  have hsrc2 := lookupChannel_mem_codes hchan2
  have hro_u : rolloverUser clock1.monthStart vu =
      { vu with monthlyCharacterUsage := 0, usageResetDate := m } := by
    unfold rolloverUser
    rw [hm1]
    exact if_pos hru
  have hro_c : rolloverConfig clock1.monthStart cfg =
      { cfg with monthlyCharacterUsage := 0, usageResetDate := m } := by
    unfold rolloverConfig
    rw [hm1]
    exact if_pos hrc
  have hr1 : relayEvent clock1 env1 ev1 s = relayCore clock1 env1 ev1 cfg vu src1
      { s with bans := (getActiveBan clock1.ms ev1.guildId ev1.authorId s.bans).1 } :=
    relayEvent_gates clock1 env1 ev1 s cfg vu src1
      hbot1 hweb1 hg1 hblank1 hcfg hcat hchan1 hvu him hban1
  rw [relayCore_committed clock1 env1 ev1 cfg vu src1
    { s with bans := (getActiveBan clock1.ms ev1.guildId ev1.authorId s.bans).1 }
    hsrc1 hu1 hgl1 htr1 hfo1 htx1] at hr1
  rw [hro_u, hro_c] at hr1
  refine ⟨by rw [hr1]; simp, by rw [hr1]; simp, by rw [hr1]; simp,
    by rw [hr1]; simp, ?_, ?_, ?_, ?_⟩ <;>
  · have hnr_u : rolloverUser clock2.monthStart
        (⟨0 + ev1.content.length * numTargetLanguages cfg.enabledLanguages src1, m,
          (updateStreak clock1.day vu.lastActiveDate
            vu.currentStreak vu.longestStreak).1,
          (updateStreak clock1.day vu.lastActiveDate
            vu.currentStreak vu.longestStreak).2,
          some clock1.day, vu.totalTranslations + 1,
          vu.immersionEnabled⟩ : VerifiedUser) =
        ⟨0 + ev1.content.length * numTargetLanguages cfg.enabledLanguages src1, m,
          (updateStreak clock1.day vu.lastActiveDate
            vu.currentStreak vu.longestStreak).1,
          (updateStreak clock1.day vu.lastActiveDate
            vu.currentStreak vu.longestStreak).2,
          some clock1.day, vu.totalTranslations + 1, vu.immersionEnabled⟩ := by
      unfold rolloverUser
      rw [hm2]
      exact if_neg (lt_irrefl m)
    have hnr_c : rolloverConfig clock2.monthStart
        { cfg with
          monthlyCharacterUsage :=
            0 + ev1.content.length * numTargetLanguages cfg.enabledLanguages src1,
          usageResetDate := m } =
        { cfg with
          monthlyCharacterUsage :=
            0 + ev1.content.length * numTargetLanguages cfg.enabledLanguages src1,
          usageResetDate := m } := by
      unfold rolloverConfig
      rw [hm2]
      exact if_neg (lt_irrefl m)
    have hr2 : relayEvent clock2 env2 ev2 (relayEvent clock1 env1 ev1 s).state =
        relayCore clock2 env2 ev2
          { cfg with
            monthlyCharacterUsage :=
              0 + ev1.content.length * numTargetLanguages cfg.enabledLanguages src1,
            usageResetDate := m }
          ⟨0 + ev1.content.length * numTargetLanguages cfg.enabledLanguages src1, m,
            (updateStreak clock1.day vu.lastActiveDate
              vu.currentStreak vu.longestStreak).1,
            (updateStreak clock1.day vu.lastActiveDate
              vu.currentStreak vu.longestStreak).2,
            some clock1.day, vu.totalTranslations + 1, vu.immersionEnabled⟩
          src2
          { (relayEvent clock1 env1 ev1 s).state with
            bans := (getActiveBan clock2.ms ev2.guildId ev2.authorId
              (relayEvent clock1 env1 ev1 s).state.bans).1 } :=
      relayEvent_gates clock2 env2 ev2 (relayEvent clock1 env1 ev1 s).state
        _ _ src2 hbot2 hweb2 hg2 hblank2
        (by rw [hr1]) hcat hchan2 (by rw [hr1]) him
        (by rw [hr1]; exact hban2)
    rw [relayCore_committed clock2 env2 ev2 _ _ src2
      { (relayEvent clock1 env1 ev1 s).state with
        bans := (getActiveBan clock2.ms ev2.guildId ev2.authorId
          (relayEvent clock1 env1 ev1 s).state.bans).1 }
      hsrc2
      (by rw [hnr_u, hnr_c, hr1]; exact hu2)
      (by rw [hnr_c]; exact hgl2)
      htr2 hfo2 htx2] at hr2
    rw [hnr_u, hnr_c] at hr2
    rw [hr2]
    simp

/-- Stale rows from a previous month (usageResetDate before the current
month start of 0). -/
def vuOld : VerifiedUser := ⟨7, -3, 0, 0, none, 0, true⟩

def cfgOld : GuildConfig :=
  { cfgA with monthlyCharacterUsage := 11, usageResetDate := -3 }

def stateOld : RelayState := ⟨some cfgOld, some vuOld, none, [], []⟩

def clockB : Clock := ⟨2000, 10, 0⟩

def evB : MessageEvent := ⟨false, false, true, "hi", "chES", "g1", "u1"⟩

theorem monthly_rollover_idempotent_witness :
    (relayEvent clockA envAllOk evA stateOld).state.verifiedUser.map
      (fun u => u.usageResetDate) = some 0 ∧
    (relayEvent clockA envAllOk evA stateOld).state.verifiedUser.map
      (fun u => u.monthlyCharacterUsage) = some 32 ∧
    (relayEvent clockA envAllOk evA stateOld).state.config.map
      (fun c => c.usageResetDate) = some 0 ∧
    (relayEvent clockA envAllOk evA stateOld).state.config.map
      (fun c => c.monthlyCharacterUsage) = some 32 ∧
    (relayEvent clockB envAllOk evB
        (relayEvent clockA envAllOk evA stateOld).state).state.verifiedUser.map
      (fun u => u.usageResetDate) = some 0 ∧
    (relayEvent clockB envAllOk evB
        (relayEvent clockA envAllOk evA stateOld).state).state.verifiedUser.map
      (fun u => u.monthlyCharacterUsage) = some 48 ∧
    (relayEvent clockB envAllOk evB
        (relayEvent clockA envAllOk evA stateOld).state).state.config.map
      (fun c => c.usageResetDate) = some 0 ∧
    (relayEvent clockB envAllOk evB
        (relayEvent clockA envAllOk evA stateOld).state).state.config.map
      (fun c => c.monthlyCharacterUsage) = some 48 := by
  have h := monthly_rollover_idempotent clockA clockB envAllOk envAllOk evA evB
    stateOld cfgOld vuOld "EN" "ES" 0
    rfl rfl (by decide) (by decide)
    rfl rfl rfl (by decide)
    rfl (by decide) (by decide) rfl rfl rfl
    (by decide) (by decide) rfl (by decide) rfl
    rfl rfl rfl (by decide)
    (by decide) rfl
    (by decide) (by decide) rfl (by decide) rfl
  exact ⟨h.1, h.2.1, h.2.2.1, h.2.2.2.1, h.2.2.2.2.1, h.2.2.2.2.2.1,
    h.2.2.2.2.2.2.1, h.2.2.2.2.2.2.2⟩

end Aquarium
